import Mathlib

/-!
Shallow embedding of the Market-Magic data-ingestion pipelines
(`fetch_ohlvc.py`, `fetch_news_sentiment.py`, `fetch_social_media_sentiment.py`).

External collaborators (the sentiment model, the NLTK tokenizer, the news API,
the Reddit scraper, the PostgreSQL store) are passed in as parameters; the
PostgreSQL tables are modelled as Lean lists of rows and the SQL `ON CONFLICT`
clauses as explicit conditional inserts following the statements in the source.
Numbers are modelled with `ℚ`/`ℤ` (the Python code only negates, compares and
copies them, which is exact).
-/

namespace MarketMagic

/-! ### TextAnalyzer (shared by the news and social pipelines) -/

/-- The Python `str.isalpha` test: nonempty and every character alphabetic. -/
def pyIsAlpha (s : String) : Bool := !s.isEmpty && s.data.all Char.isAlpha

/-- The Python `str.lower` call, modelled characterwise. -/
def py_lower (s : String) : String := String.mk (s.data.map Char.toLower)

/-- The `extract_keywords` function of `fetch_news_sentiment.py` (identical in
`fetch_social_media_sentiment.py`): tokenize the lowercased text, keep the
alphabetic tokens that are not stopwords.  The NLTK tokenizer and the stopword
set are external collaborators, passed in as parameters. -/
def extract_keywords (tokenize : String → List String) (stop_words : List String)
    (text : String) : List String :=
  (tokenize (py_lower text)).filter (fun word => pyIsAlpha word && decide (word ∉ stop_words))

/-- The `analyze_sentiment` function: the transformers pipeline returns a
label and a confidence score; the score is kept for a POSITIVE label and
negated otherwise.  The model output is passed in as the pair of arguments. -/
def analyze_sentiment (label : String) (score : ℚ) : ℚ :=
  if label = "POSITIVE" then score else -score

/-- The entity map produced by `extract_entities` (a stub in both files). -/
structure Entities where
  companies : List String
  people : List String
  locations : List String
deriving DecidableEq

/-- The `extract_entities` function: a placeholder returning empty lists. -/
def extract_entities (_text : String) : Entities := ⟨[], [], []⟩

/-! ### Word splitting (model of the regex word boundary used by the
social-media fetch filter) -/

/-- A regex word character: alphanumeric or underscore. -/
def wordChar (c : Char) : Bool := c.isAlphanum || c = '_'

/-- Split a character list into its maximal runs of word characters. -/
def wordsAux : List Char → List Char → List (List Char)
  | cur, [] => if cur.isEmpty then [] else [cur.reverse]
  | cur, c :: cs =>
    if wordChar c then wordsAux (c :: cur) cs
    else if cur.isEmpty then wordsAux [] cs
    else cur.reverse :: wordsAux [] cs

/-- The maximal words (runs of word characters) of a string. -/
def words (s : String) : List String := (wordsAux [] s.toList).map (fun l => String.mk l)

/-- The filter actually compiled in `fetch_reddit_posts`: the source builds the
pattern from the expression that joins the CHARACTERS of the symbol with
alternation bars inside word boundaries, case-insensitively.  For an
alphanumeric symbol this matches a text exactly when some maximal word of the
text equals (case-insensitively) one single character of the symbol. -/
def ticker_regex_matches (symbol text : String) : Bool :=
  (words text).any (fun w => symbol.toList.any (fun c => decide (py_lower w = String.mk [c.toLower])))

/-- Modelled from the spec: a text contains the symbol as a case-insensitive
whole-word token (the pre-filter contract stated for the social source). -/
def whole_word_contains (symbol text : String) : Bool :=
  (words text).any (fun w => decide (py_lower w = py_lower symbol))

/-! ### News pipeline records and transform -/

/-- A raw article as built by `fetch_news_articles`. -/
structure Article where
  title : String
  text : String
  url : String
  datetime : String
  source : String
deriving DecidableEq

/-- A processed article as accumulated by `process_articles`. -/
structure ProcessedArticle where
  datetime : String
  source : String
  title : String
  sentiment_score : ℚ
  keywords : List String
  entity_recognition : Entities
deriving DecidableEq

/-- The `process_articles` function of `fetch_news_sentiment.py`.  The loop
body has no exception handler, so a failure of the sentiment model on any
record propagates out of the whole call; this is modelled with `Except`:
the model `analyze` may fail, and the first failure aborts the call. -/
def process_articles {E : Type} (analyze : String → Except E ℚ)
    (tokenize : String → List String) (stop_words : List String) :
    List Article → Except E (List ProcessedArticle)
  | [] => Except.ok []
  | a :: rest =>
    match analyze a.text with
    | Except.error e => Except.error e
    | Except.ok s =>
      match process_articles analyze tokenize stop_words rest with
      | Except.error e => Except.error e
      | Except.ok ps =>
        Except.ok ({ datetime := a.datetime, source := a.source, title := a.title,
                     sentiment_score := s,
                     keywords := extract_keywords tokenize stop_words a.text,
                     entity_recognition := extract_entities a.text } :: ps)

/-- The `fetch_news_articles` function: the API call is wrapped in a
try/except that logs the failure and returns the (empty) accumulated list.
The news API client is the external parameter. -/
def fetch_news_articles {E : Type} (get_articles : String → Except E (List Article))
    (symbol : String) : List Article :=
  match get_articles symbol with
  | Except.ok items => items
  | Except.error _ => []

/-- The `main` loop of `fetch_news_sentiment.py`: for each symbol fetch
articles (fetch failures yield an empty list), skip empty results, transform
and accumulate.  An uncaught transform failure propagates. -/
def news_main {E : Type} (get_articles : String → Except E (List Article))
    (analyze : String → Except E ℚ) (tokenize : String → List String)
    (stop_words : List String) : List String → Except E (List ProcessedArticle)
  | [] => Except.ok []
  | s :: rest =>
    let articles := fetch_news_articles get_articles s
    if articles.isEmpty then news_main get_articles analyze tokenize stop_words rest
    else
      match process_articles analyze tokenize stop_words articles with
      | Except.error e => Except.error e
      | Except.ok ps =>
        match news_main get_articles analyze tokenize stop_words rest with
        | Except.error e => Except.error e
        | Except.ok acc => Except.ok (ps ++ acc)

/-! ### Social pipeline records and transform -/

/-- A raw post dictionary as yielded by `scrape_reddit`. -/
structure Post where
  text : String
  datetime : String
  user : String
  platform : String
  url : String
deriving DecidableEq

/-- A processed post as accumulated by `process_posts`. -/
structure ProcessedPost where
  datetime : String
  platform : String
  user : String
  text : String
  url : String
  sentiment_score : ℚ
  keywords : List String
  entity_recognition : Entities
deriving DecidableEq

/-- The `process_posts` function of `fetch_social_media_sentiment.py`; like
`process_articles` it has no per-record exception handler. -/
def process_posts {E : Type} (analyze : String → Except E ℚ)
    (tokenize : String → List String) (stop_words : List String) :
    List Post → Except E (List ProcessedPost)
  | [] => Except.ok []
  | p :: rest =>
    match analyze p.text with
    | Except.error e => Except.error e
    | Except.ok s =>
      match process_posts analyze tokenize stop_words rest with
      | Except.error e => Except.error e
      | Except.ok ps =>
        Except.ok ({ datetime := p.datetime, platform := p.platform, user := p.user,
                     text := p.text, url := p.url, sentiment_score := s,
                     keywords := extract_keywords tokenize stop_words p.text,
                     entity_recognition := extract_entities p.text } :: ps)

/-- An item produced by the Reddit scraper (external collaborator). -/
structure RedditItem where
  content : String
  date : String
  user : String
  url : String
deriving DecidableEq

/-- The exceptions that can leave the social fetch: the unconditional
AttributeError of line 115 (`datetime.timedelta` evaluated on the CLASS
imported by `from datetime import datetime`, which has no such attribute),
and — only in the code made unreachable by it — an error from the external
scraper. -/
inductive SocialErr (E : Type) : Type
  | attributeError : SocialErr E
  | scraper : E → SocialErr E

/-- Line 115 of `fetch_social_media_sentiment.py`: `since = (datetime.now()
- datetime.timedelta(hours=24)).strftime(...)`.  `datetime` here names the
class imported by `from datetime import datetime`, so the `timedelta`
attribute lookup unconditionally raises AttributeError, before the ticker
regex is built and before the scraper is consulted. -/
def compute_since (E : Type) : Except (SocialErr E) String :=
  Except.error SocialErr.attributeError

/-- The `fetch_reddit_posts` function: first compute the lookback date
(line 115, which always raises), then — in the remainder of the body, which
is therefore dead code — compile the ticker regex, run the scraper and keep
the matching items shaped into post dictionaries.  There is no try/except
anywhere in the function, so the AttributeError (or, in the dead code, a
scraper failure) propagates to the caller. -/
def fetch_reddit_posts {E : Type} (scrape : String → Except E (List RedditItem))
    (symbol : String) : Except (SocialErr E) (List Post) :=
  match compute_since E with
  | Except.error e => Except.error e
  | Except.ok _since =>
    match scrape symbol with
    | Except.error e => Except.error (SocialErr.scraper e)
    | Except.ok items =>
      Except.ok ((items.filter (fun it => ticker_regex_matches symbol it.content)).map
        (fun it => { text := it.content, datetime := it.date, user := it.user,
                     platform := "Reddit", url := it.url }))

/-- The `main` loop of `fetch_social_media_sentiment.py`: for each symbol
fetch posts, skip empty results, transform and accumulate.  Nothing in the
loop catches exceptions, so the fetch's unconditional AttributeError (and
any transform failure) aborts the run. -/
def social_main {E : Type} (scrape : String → Except E (List RedditItem))
    (analyze : String → Except (SocialErr E) ℚ) (tokenize : String → List String)
    (stop_words : List String) : List String → Except (SocialErr E) (List ProcessedPost)
  | [] => Except.ok []
  | s :: rest =>
    match fetch_reddit_posts scrape s with
    | Except.error e => Except.error e
    | Except.ok posts =>
      if posts.isEmpty then social_main scrape analyze tokenize stop_words rest
      else
        match process_posts analyze tokenize stop_words posts with
        | Except.error e => Except.error e
        | Except.ok ps =>
          match social_main scrape analyze tokenize stop_words rest with
          | Except.error e => Except.error e
          | Except.ok acc => Except.ok (ps ++ acc)

/-! ### Store model: keyed inserts with conflict policies -/

/-- Number of rows of a table whose key equals `k`. -/
def count_key {α κ : Type} [DecidableEq κ] (key : α → κ) (db : List α) (k : κ) : ℕ :=
  (db.filter (fun x => key x = k)).length

/-- The table satisfies the unique constraint on its key. -/
def keys_unique {α κ : Type} [DecidableEq κ] (key : α → κ) (db : List α) : Prop :=
  ∀ k, count_key key db k ≤ 1

/-- An `INSERT ... ON CONFLICT (key) DO NOTHING` statement on a table. -/
def insert_no_conflict {α κ : Type} [DecidableEq κ] (key : α → κ)
    (db : List α) (r : α) : List α :=
  if ∃ x ∈ db, key x = key r then db else db ++ [r]

/-- Issuing the no-op-conflict insert for every record of a batch in order. -/
def load_no_conflict {α κ : Type} [DecidableEq κ] (key : α → κ)
    (db : List α) (batch : List α) : List α :=
  batch.foldl (insert_no_conflict key) db

/-- A row of the `news_sentiment` table. -/
structure NewsRow where
  datetime : String
  source_id : ℕ
  title : String
  sentiment_score : ℚ
  entity_recognition : String
  keywords : String
deriving DecidableEq

/-- The natural key of `news_sentiment`: the conflict target `(datetime, title)`. -/
def news_key (r : NewsRow) : String × String := (r.datetime, r.title)

/-- The `INSERT INTO news_sentiment ... ON CONFLICT (datetime, title) DO
NOTHING` statement of `fetch_news_sentiment.py`. -/
def insert_news_sentiment : List NewsRow → NewsRow → List NewsRow :=
  insert_no_conflict news_key

/-- The per-record insert loop over a news batch. -/
def load_news (db : List NewsRow) (batch : List NewsRow) : List NewsRow :=
  load_no_conflict news_key db batch

/-- A row of the `social_media_sentiment` table. -/
structure SocialRow where
  datetime : String
  platform_id : ℕ
  user_handle : String
  text : String
  url : String
  sentiment_score : ℚ
  entity_recognition : String
  keywords : String
deriving DecidableEq

/-- The natural key of `social_media_sentiment`: the conflict target
`(datetime, text)`. -/
def social_key (r : SocialRow) : String × String := (r.datetime, r.text)

/-- The `INSERT INTO social_media_sentiment ... ON CONFLICT (datetime, text)
DO NOTHING` statement of `fetch_social_media_sentiment.py`. -/
def insert_social_sentiment : List SocialRow → SocialRow → List SocialRow :=
  insert_no_conflict social_key

/-- The per-record insert loop over a social batch. -/
def load_social (db : List SocialRow) (batch : List SocialRow) : List SocialRow :=
  load_no_conflict social_key db batch

/-! ### Dimension tables (news sources, social platforms) -/

/-- A row of a dimension table (`news_sources` / `social_media_platforms`):
a serial surrogate id and a unique name. -/
structure DimRow where
  id : ℕ
  name : String
deriving DecidableEq

/-- The `INSERT INTO <dimension> (name) VALUES (%s) ON CONFLICT (name) DO
NOTHING` statement; the store state carries the next serial id. -/
def insert_dim_if_absent (st : List DimRow × ℕ) (n : String) : List DimRow × ℕ :=
  if ∃ r ∈ st.1, r.name = n then st else (st.1 ++ [⟨st.2, n⟩], st.2 + 1)

/-- The dimension-resolution phase of `load_to_database` (both sentiment
files): insert-if-absent each referenced name, then one bulk `SELECT id,
name` from which the name-to-id mapping is built. -/
def resolve_all (st : List DimRow × ℕ) (names : List String) :
    (List DimRow × ℕ) × List (String × ℕ) :=
  let st2 := names.foldl insert_dim_if_absent st
  (st2, st2.1.map (fun r => (r.name, r.id)))

/-! ### Transaction skeleton of the load phase -/

/-- Issue the per-record store action for every record of the batch in
order; the first failure aborts the pass, discarding the work of the pass. -/
def issue_all {DB Rec E : Type} (ins : DB → Rec → Except E DB) :
    DB → List Rec → Except E DB
  | db, [] => Except.ok db
  | db, r :: rs =>
    match ins db r with
    | Except.ok db2 => issue_all ins db2 rs
    | Except.error e => Except.error e

/-- The transaction shape of `load_to_database` (and of the market-bar load):
issue every record, then `conn.commit()` exactly once; on any failure the
transaction is rolled back and the committed store is unchanged.  Returns the
committed store and the number of commits performed. -/
def load_txn {DB Rec E : Type} (ins : DB → Rec → Except E DB)
    (committed : DB) (batch : List Rec) : DB × ℕ :=
  match issue_all ins committed batch with
  | Except.ok db2 => (db2, 1)
  | Except.error _ => (committed, 0)

/-! ### Market-bar table and upsert -/

/-- A row of the `market_data_partitioned` table. -/
structure BarRow where
  symbol : String
  datetime : String
  open_price : ℚ
  high_price : ℚ
  low_price : ℚ
  close_price : ℚ
  volume : ℤ
deriving DecidableEq

/-- The `INSERT INTO market_data_partitioned ... ON CONFLICT (symbol,
datetime) DO UPDATE SET close_price = EXCLUDED.close_price, volume =
EXCLUDED.volume` statement of `fetch_ohlvc.py`. -/
def upsert_market_bar (db : List BarRow) (r : BarRow) : List BarRow :=
  if ∃ x ∈ db, x.symbol = r.symbol ∧ x.datetime = r.datetime then
    db.map (fun x =>
      if x.symbol = r.symbol ∧ x.datetime = r.datetime then
        { x with close_price := r.close_price, volume := r.volume }
      else x)
  else db ++ [r]

/-- The per-row upsert loop of the market-bar load. -/
def load_market_data (db : List BarRow) (batch : List BarRow) : List BarRow :=
  batch.foldl upsert_market_bar db

/-! ### Market-bar transform: cleaning and type conversion -/

/-- Value of a nonempty all-digit character list. -/
def digitsVal (cs : List Char) : Option ℕ :=
  if cs.isEmpty || !cs.all Char.isDigit then none
  else some (cs.foldl (fun a c => 10 * a + (c.toNat - 48)) 0)

/-- Split a character list at the dots. -/
def splitDotAux : List Char → List Char → List (List Char)
  | cur, [] => [cur.reverse]
  | cur, c :: cs =>
    if c = '.' then cur.reverse :: splitDotAux [] cs else splitDotAux (c :: cur) cs

/-- An unsigned decimal numeral, with an optional fractional part. -/
def parse_unsigned (cs : List Char) : Option ℚ :=
  match splitDotAux [] cs with
  | [w] => (digitsVal w).map (fun n => (n : ℚ))
  | [w, f] =>
    match digitsVal w, digitsVal f with
    | some n, some m => some ((n : ℚ) + (m : ℚ) / ((10 : ℚ) ^ f.length))
    | _, _ => none
  | _ => none

/-- Model of `pd.to_numeric(_, errors='coerce')` on one cell: a signed
decimal numeral parses, anything else coerces to NaN (`none`). -/
def to_numeric (s : String) : Option ℚ :=
  match s.toList with
  | '-' :: rest => (parse_unsigned rest).map (fun q => -q)
  | '+' :: rest => parse_unsigned rest
  | cs => parse_unsigned cs

/-- One raw row of a per-company table (all cells are spreadsheet strings).
The `Open` column is named `open_` because `open` is a Lean keyword. -/
structure RawRow where
  symbol : String
  date : String
  open_ : String
  high : String
  low : String
  close : String
  volume : String
deriving DecidableEq

/-- One row after cleaning and type conversion.  The `Date` cell is carried
through unchanged (its datetime parsing is outside the numeric-cleaning
claims). -/
structure CleanRow where
  symbol : String
  date : String
  open_ : ℚ
  high : ℚ
  low : ℚ
  close : ℚ
  volume : ℤ
deriving DecidableEq

/-- The first cleaning loop applied to one `Open` cell:
`replace('', '0')` then `pd.to_numeric(..., errors='coerce')`. -/
def clean_open (s : String) : Option ℚ :=
  to_numeric (if s = "" then "0" else s)

/-- The first cleaning loop: drop every row whose converted `Open` is NaN or
zero, keeping the converted `Open` value alongside the row. -/
def filter_rows (rows : List RawRow) : List (RawRow × ℚ) :=
  rows.filterMap (fun r =>
    match clean_open r.open_ with
    | some q => if q = 0 then none else some (r, q)
    | none => none)

/-- The second loop's `replace(['', '-'], '0')` on one cell. -/
def repl_empty_dash (s : String) : String :=
  if s = "" ∨ s = "-" then "0" else s

/-- Price conversion: replace, coerce, `fillna(0)`, as float. -/
def price_float (s : String) : ℚ :=
  (to_numeric (repl_empty_dash s)).getD 0

/-- Volume conversion: replace, coerce, `fillna(0)`, `astype(int)`
(truncation toward zero). -/
def volume_int (s : String) : ℤ :=
  match to_numeric (repl_empty_dash s) with
  | some q => Int.tdiv q.num (q.den : ℤ)
  | none => 0

/-- The second (type-conversion) loop applied to one surviving row; the
`Open` column is already numeric at this point, so the string replacement
does not touch it. -/
def convert_types (p : RawRow × ℚ) : CleanRow :=
  { symbol := p.1.symbol, date := p.1.date, open_ := p.2,
    high := price_float p.1.high, low := price_float p.1.low,
    close := price_float p.1.close, volume := volume_int p.1.volume }

/-- The whole per-company transform of `fetch_ohlvc.py`: cleaning loop, then
type-conversion loop. -/
def transform_company (rows : List RawRow) : List CleanRow :=
  (filter_rows rows).map convert_types

/-- Modelled from the claim's words: a row survives when, after replacing ''
and '-' by 0, its `Open` value is numeric and nonzero. -/
def spec_keep (r : RawRow) : Bool :=
  match to_numeric (repl_empty_dash r.open_) with
  | some q => decide (q ≠ 0)
  | none => false

/-- Modelled from the claim's words: the converted surviving row — the four
price fields numeric with unparseable values coerced to 0, the volume an
integer with unparseable values coerced to 0. -/
def spec_row (r : RawRow) : CleanRow :=
  { symbol := r.symbol, date := r.date, open_ := price_float r.open_,
    high := price_float r.high, low := price_float r.low,
    close := price_float r.close, volume := volume_int r.volume }

/-! ## Theorems -/

/-- Claim C5 counterexample: with confidence 0 (inside the claim's stated
[0,1] range) and a non-POSITIVE label the produced score is 0, which is
non-negative although the label is not POSITIVE — so "non-negative exactly
when the label is POSITIVE" fails at this input. -/
theorem c5_sentiment_sign_counterexample :
    (0 : ℚ) ≤ 0 ∧ (0 : ℚ) ≤ 1 ∧ analyze_sentiment "NEGATIVE" 0 = 0 ∧
    ¬((0 ≤ analyze_sentiment "NEGATIVE" 0) ↔ "NEGATIVE" = "POSITIVE") := by
  refine ⟨le_refl 0, by norm_num, by simp [analyze_sentiment], fun h => ?_⟩
  have hlab : ("NEGATIVE" : String) = "POSITIVE" := h.mp (by simp [analyze_sentiment])
  exact absurd hlab (by decide)

/-- Claim C5 amended: for a model confidence in [0,1] the score is in
[-1,1], its magnitude equals the confidence, it equals the confidence for a
POSITIVE label and its negation otherwise; when the confidence is strictly
positive the score is non-negative exactly when the label is POSITIVE. -/
theorem c5_sentiment_range_sign (label : String) (score : ℚ)
    (h0 : 0 ≤ score) (h1 : score ≤ 1) :
    -1 ≤ analyze_sentiment label score ∧ analyze_sentiment label score ≤ 1 ∧
    |analyze_sentiment label score| = score ∧
    (label = "POSITIVE" → analyze_sentiment label score = score) ∧
    (label ≠ "POSITIVE" → analyze_sentiment label score = -score) ∧
    (0 < score → ((0 ≤ analyze_sentiment label score) ↔ label = "POSITIVE")) := by
  by_cases h : label = "POSITIVE"
  · have e1 : analyze_sentiment label score = score := by
      simp [analyze_sentiment, h]
    rw [e1]
    exact ⟨by linarith, h1, abs_of_nonneg h0, fun _ => rfl,
      fun hc => absurd h hc, fun _ => ⟨fun _ => h, fun _ => h0⟩⟩
  · have e2 : analyze_sentiment label score = -score := by
      simp [analyze_sentiment, h]
    rw [e2]
    refine ⟨by linarith, by linarith, ?_, fun hc => absurd hc h, fun _ => rfl, fun hpos => ?_⟩
    · rw [abs_neg]; exact abs_of_nonneg h0
    · exact ⟨fun hle => absurd (by linarith : score ≤ 0) (not_le.mpr hpos),
        fun hlab => absurd hlab h⟩

/-- Witness for the amended C5 theorem at label POSITIVE, confidence 1/2. -/
theorem c5_sentiment_range_sign_witness :
    (0 : ℚ) ≤ 1/2 ∧ (1/2 : ℚ) ≤ 1 ∧
    (-1 ≤ analyze_sentiment "POSITIVE" (1/2) ∧ analyze_sentiment "POSITIVE" (1/2) ≤ 1 ∧
     |analyze_sentiment "POSITIVE" (1/2)| = 1/2 ∧
     ("POSITIVE" = "POSITIVE" → analyze_sentiment "POSITIVE" (1/2) = 1/2) ∧
     ("POSITIVE" ≠ "POSITIVE" → analyze_sentiment "POSITIVE" (1/2) = -(1/2)) ∧
     (0 < (1/2 : ℚ) → ((0 ≤ analyze_sentiment "POSITIVE" (1/2)) ↔ "POSITIVE" = "POSITIVE"))) :=
  ⟨by norm_num, by norm_num,
    c5_sentiment_range_sign "POSITIVE" (1/2) (by norm_num) (by norm_num)⟩

/-- Claim C6: for every tokenizer, stopword set and text, the keyword list
is a sublist of the tokens of the lowercased text (original order,
duplicates preserved), contains only alphabetic non-stopword tokens, and
keeps every alphabetic non-stopword token with its full multiplicity. -/
theorem c6_extract_keywords_exact (tokenize : String → List String)
    (stop_words : List String) (text : String) :
    List.Sublist (extract_keywords tokenize stop_words text) (tokenize (py_lower text)) ∧
    (∀ w ∈ extract_keywords tokenize stop_words text,
      pyIsAlpha w = true ∧ w ∉ stop_words) ∧
    (∀ w, pyIsAlpha w = true → w ∉ stop_words →
      (extract_keywords tokenize stop_words text).count w
        = (tokenize (py_lower text)).count w) := by
  refine ⟨List.filter_sublist _, ?_, ?_⟩
  · intro w hw
    have h := (List.mem_filter.mp hw).2
    simpa [Bool.and_eq_true, decide_eq_true_eq] using h
  · intro w h1 h2
    exact List.count_filter (by simp [h1, h2])

/-- Witness for the C6 theorem at a whitespace tokenizer, stopwords
containing only "the", and a concrete text. -/
theorem c6_extract_keywords_exact_witness :
    pyIsAlpha "cat" = true ∧ "cat" ∉ ["the"] ∧
    (extract_keywords (fun s => s.splitOn " ") ["the"] "The cat sat").count "cat"
      = ((py_lower "The cat sat").splitOn " ").count "cat" :=
  ⟨by decide, by decide,
    (c6_extract_keywords_exact (fun s => s.splitOn " ") ["the"] "The cat sat").2.2
      "cat" (by decide) (by decide)⟩

/-- Claim C1: when a market-bar upsert collides on (symbol, datetime) with
an existing row, the table keeps its row count, every stored row at that key
keeps the previously stored open/high/low and takes the incoming
close/volume, and rows at other keys are untouched. -/
theorem c1_market_upsert_updates_close_volume_only (db : List BarRow) (r : BarRow)
    (h : ∃ x ∈ db, x.symbol = r.symbol ∧ x.datetime = r.datetime) :
    (upsert_market_bar db r).length = db.length ∧
    (∀ y ∈ upsert_market_bar db r, y.symbol = r.symbol → y.datetime = r.datetime →
      ∃ x ∈ db, x.symbol = r.symbol ∧ x.datetime = r.datetime ∧
        y.open_price = x.open_price ∧ y.high_price = x.high_price ∧
        y.low_price = x.low_price ∧ y.close_price = r.close_price ∧
        y.volume = r.volume) ∧
    (∀ y ∈ db, ¬(y.symbol = r.symbol ∧ y.datetime = r.datetime) →
      y ∈ upsert_market_bar db r) := by
  unfold upsert_market_bar
  rw [if_pos h]
  refine ⟨List.length_map _ _, ?_, ?_⟩
  · intro y hy hys hyd
    rcases List.mem_map.mp hy with ⟨x, hx, hfx⟩
    by_cases hk : x.symbol = r.symbol ∧ x.datetime = r.datetime
    · rw [if_pos hk] at hfx
      exact ⟨x, hx, hk.1, hk.2, by rw [← hfx], by rw [← hfx], by rw [← hfx],
        by rw [← hfx], by rw [← hfx]⟩
    · rw [if_neg hk] at hfx
      exact absurd ⟨hfx ▸ hys, hfx ▸ hyd⟩ hk
  · intro y hy hnk
    have hfy : (if y.symbol = r.symbol ∧ y.datetime = r.datetime then
        { y with close_price := r.close_price, volume := r.volume } else y) = y :=
      if_neg hnk
    exact hfy ▸ List.mem_map_of_mem _ hy

/-- Witness for the C1 theorem: a one-row table hit by a colliding upsert. -/
theorem c1_market_upsert_updates_close_volume_only_witness :
    (∃ x ∈ ([⟨"AAPL", "2024-01-02", 185, 186, 184, 185, 1000⟩] : List BarRow),
      x.symbol = (⟨"AAPL", "2024-01-02", 185, 187, 183, 186, 2000⟩ : BarRow).symbol ∧
      x.datetime = (⟨"AAPL", "2024-01-02", 185, 187, 183, 186, 2000⟩ : BarRow).datetime) ∧
    (upsert_market_bar [⟨"AAPL", "2024-01-02", 185, 186, 184, 185, 1000⟩]
      ⟨"AAPL", "2024-01-02", 185, 187, 183, 186, 2000⟩).length
      = ([⟨"AAPL", "2024-01-02", 185, 186, 184, 185, 1000⟩] : List BarRow).length :=
  ⟨by decide,
    (c1_market_upsert_updates_close_volume_only
      [⟨"AAPL", "2024-01-02", 185, 186, 184, 185, 1000⟩]
      ⟨"AAPL", "2024-01-02", 185, 187, 183, 186, 2000⟩ (by decide)).1⟩

/-- Claim C2: if any record of the batch fails while being issued, the
committed store is unchanged (zero rows of the batch persisted, including
records already issued in the pass) and no commit happens; and in every run
the commit is performed at most once. -/
theorem c2_load_all_or_nothing :
    (∀ (DB Rec E : Type) (ins : DB → Rec → Except E DB) (db : DB)
      (batch : List Rec) (e : E),
      issue_all ins db batch = Except.error e → load_txn ins db batch = (db, 0)) ∧
    (∀ (DB Rec E : Type) (ins : DB → Rec → Except E DB) (db : DB) (batch : List Rec),
      (load_txn ins db batch).2 ≤ 1) := by
  constructor
  · intro DB Rec E ins db batch e h
    unfold load_txn
    rw [h]
  · intro DB Rec E ins db batch
    unfold load_txn
    cases issue_all ins db batch <;> simp

/-- Witness for the C2 theorem: a three-record batch whose second record
fails leaves the one-row store exactly as it was, with zero commits. -/
theorem c2_load_all_or_nothing_witness :
    issue_all (fun (db : List ℕ) (r : ℕ) =>
        if r = 2 then Except.error () else Except.ok (db ++ [r]))
      [0] [1, 2, 3] = Except.error () ∧
    load_txn (fun (db : List ℕ) (r : ℕ) =>
        if r = 2 then Except.error () else Except.ok (db ++ [r]))
      [0] [1, 2, 3] = ([0], 0) :=
  ⟨rfl, c2_load_all_or_nothing.1 (List ℕ) ℕ Unit
    (fun (db : List ℕ) (r : ℕ) => if r = 2 then Except.error () else Except.ok (db ++ [r]))
    [0] [1, 2, 3] () rfl⟩

/-! ### Lemmas on conflict-do-nothing inserts -/

theorem mem_insert_no_conflict {α κ : Type} [DecidableEq κ] (key : α → κ)
    (db : List α) (r x : α) (h : x ∈ db) : x ∈ insert_no_conflict key db r := by
  unfold insert_no_conflict
  split
  · exact h
  · exact List.mem_append_left _ h

theorem key_mem_insert_no_conflict {α κ : Type} [DecidableEq κ] (key : α → κ)
    (db : List α) (r : α) : ∃ x ∈ insert_no_conflict key db r, key x = key r := by
  unfold insert_no_conflict
  split
  · next hp => exact hp
  · exact ⟨r, List.mem_append_right _ (List.mem_singleton.mpr rfl), rfl⟩

theorem mem_load_no_conflict {α κ : Type} [DecidableEq κ] (key : α → κ)
    (batch : List α) : ∀ (db : List α) (x : α), x ∈ db →
    x ∈ load_no_conflict key db batch := by
  induction batch with
  | nil => exact fun db x h => h
  | cons r rs ih =>
    intro db x h
    exact ih (insert_no_conflict key db r) x (mem_insert_no_conflict key db r x h)

theorem key_mem_load_no_conflict {α κ : Type} [DecidableEq κ] (key : α → κ)
    (batch : List α) : ∀ (db : List α) (r : α), r ∈ batch →
    ∃ x ∈ load_no_conflict key db batch, key x = key r := by
  induction batch with
  | nil => exact fun db r h => absurd h (List.not_mem_nil r)
  | cons b bs ih =>
    intro db r h
    rcases List.mem_cons.mp h with h1 | h2
    · subst h1
      rcases key_mem_insert_no_conflict key db r with ⟨x, hx, hk⟩
      exact ⟨x, mem_load_no_conflict key bs _ x hx, hk⟩
    · exact ih (insert_no_conflict key db b) r h2

theorem load_no_conflict_noop {α κ : Type} [DecidableEq κ] (key : α → κ)
    (batch : List α) : ∀ db : List α, (∀ r ∈ batch, ∃ x ∈ db, key x = key r) →
    load_no_conflict key db batch = db := by
  induction batch with
  | nil => exact fun db _ => rfl
  | cons b bs ih =>
    intro db h
    have hb : insert_no_conflict key db b = db := by
      unfold insert_no_conflict
      exact if_pos (h b (List.mem_cons_self b bs))
    show load_no_conflict key (insert_no_conflict key db b) bs = db
    rw [hb]
    exact ih db (fun r hr => h r (List.mem_cons_of_mem b hr))

theorem count_key_pos_of_key_mem {α κ : Type} [DecidableEq κ] (key : α → κ)
    (db : List α) (k : κ) (h : ∃ x ∈ db, key x = k) : 1 ≤ count_key key db k := by
  rcases h with ⟨x, hx, hk⟩
  have hmem : x ∈ db.filter (fun y => key y = k) :=
    List.mem_filter.mpr ⟨hx, by simp [hk]⟩
  have := List.length_pos.mpr (List.ne_nil_of_mem hmem)
  exact this

theorem keys_unique_insert_no_conflict {α κ : Type} [DecidableEq κ] (key : α → κ)
    (db : List α) (r : α) (h : keys_unique key db) :
    keys_unique key (insert_no_conflict key db r) := by
  unfold insert_no_conflict
  split
  · exact h
  · next hne =>
    intro k
    unfold count_key
    rw [List.filter_append, List.length_append]
    by_cases hk : key r = k
    · have h0 : db.filter (fun y => key y = k) = [] := by
        rw [List.filter_eq_nil_iff]
        intro a ha
        simp only [decide_eq_true_eq]
        intro hak
        exact hne ⟨a, ha, by rw [hak, hk]⟩
      rw [h0]
      simp [hk]
    · have h1 : List.filter (fun y => decide (key y = k)) [r] = [] := by
        simp [hk]
      rw [h1]
      simpa using h k

theorem keys_unique_load_no_conflict {α κ : Type} [DecidableEq κ] (key : α → κ)
    (batch : List α) : ∀ db : List α, keys_unique key db →
    keys_unique key (load_no_conflict key db batch) := by
  induction batch with
  | nil => exact fun db h => h
  | cons b bs ih =>
    intro db h
    exact ih (insert_no_conflict key db b) (keys_unique_insert_no_conflict key db b h)

theorem count_key_load_no_conflict_eq_one {α κ : Type} [DecidableEq κ] (key : α → κ)
    (db batch : List α) (h : keys_unique key db) (r : α) (hr : r ∈ batch) :
    count_key key (load_no_conflict key db batch) (key r) = 1 := by
  have hle := keys_unique_load_no_conflict key batch db h (key r)
  have hge := count_key_pos_of_key_mem key (load_no_conflict key db batch) (key r)
    (key_mem_load_no_conflict key batch db r hr)
  exact le_antisymm hle hge

/-- Claim C3: on a store satisfying the unique-key constraints, loading a
news (resp. social) batch leaves exactly one row per (datetime, title)
(resp. (datetime, text)) key of the batch, and loading the same batch a
second time is a no-op that changes no row. -/
theorem c3_no_op_conflict_idempotent (dbN batchN : List NewsRow)
    (dbS batchS : List SocialRow)
    (hN : keys_unique news_key dbN) (hS : keys_unique social_key dbS) :
    (∀ r ∈ batchN, count_key news_key (load_news dbN batchN) (news_key r) = 1) ∧
    load_news (load_news dbN batchN) batchN = load_news dbN batchN ∧
    (∀ r ∈ batchS, count_key social_key (load_social dbS batchS) (social_key r) = 1) ∧
    load_social (load_social dbS batchS) batchS = load_social dbS batchS := by
  refine ⟨?_, ?_, ?_, ?_⟩
  · exact fun r hr => count_key_load_no_conflict_eq_one news_key dbN batchN hN r hr
  · exact load_no_conflict_noop news_key batchN (load_no_conflict news_key dbN batchN)
      (fun r hr => key_mem_load_no_conflict news_key batchN dbN r hr)
  · exact fun r hr => count_key_load_no_conflict_eq_one social_key dbS batchS hS r hr
  · exact load_no_conflict_noop social_key batchS (load_no_conflict social_key dbS batchS)
      (fun r hr => key_mem_load_no_conflict social_key batchS dbS r hr)

/-- Witness for the C3 theorem: loading a one-article batch into an empty
store twice equals loading it once. -/
theorem c3_no_op_conflict_idempotent_witness :
    keys_unique news_key ([] : List NewsRow) ∧
    keys_unique social_key ([] : List SocialRow) ∧
    load_news (load_news [] [⟨"2024-01-02T10:00:00", 1, "Fed holds rates", 87/100, "e", "k"⟩])
        [⟨"2024-01-02T10:00:00", 1, "Fed holds rates", 87/100, "e", "k"⟩]
      = load_news [] [⟨"2024-01-02T10:00:00", 1, "Fed holds rates", 87/100, "e", "k"⟩] :=
  ⟨fun _ => Nat.zero_le 1, fun _ => Nat.zero_le 1,
    (c3_no_op_conflict_idempotent []
      [⟨"2024-01-02T10:00:00", 1, "Fed holds rates", 87/100, "e", "k"⟩] [] []
      (fun _ => Nat.zero_le 1) (fun _ => Nat.zero_le 1)).2.1⟩

/-! ### Lemmas on the dimension resolver -/

theorem resolve_all_eq (st : List DimRow × ℕ) (names : List String) :
    resolve_all st names = (names.foldl insert_dim_if_absent st,
      (names.foldl insert_dim_if_absent st).1.map (fun r => (r.name, r.id))) := rfl

theorem mem_insert_dim_if_absent (st : List DimRow × ℕ) (n : String) (r : DimRow)
    (h : r ∈ st.1) : r ∈ (insert_dim_if_absent st n).1 := by
  unfold insert_dim_if_absent
  split
  · exact h
  · exact List.mem_append_left _ h

theorem mem_foldl_insert_dim (names : List String) :
    ∀ (st : List DimRow × ℕ) (r : DimRow), r ∈ st.1 →
    r ∈ (names.foldl insert_dim_if_absent st).1 := by
  induction names with
  | nil => exact fun st r h => h
  | cons n ns ih =>
    intro st r h
    exact ih (insert_dim_if_absent st n) r (mem_insert_dim_if_absent st n r h)

theorem name_mem_insert_dim_if_absent (st : List DimRow × ℕ) (n : String) :
    ∃ r ∈ (insert_dim_if_absent st n).1, r.name = n := by
  unfold insert_dim_if_absent
  split
  · next hp => exact hp
  · exact ⟨⟨st.2, n⟩, List.mem_append_right _ (List.mem_singleton.mpr rfl), rfl⟩

theorem names_mem_foldl_insert_dim (names : List String) :
    ∀ (st : List DimRow × ℕ) (n : String), n ∈ names →
    ∃ r ∈ (names.foldl insert_dim_if_absent st).1, r.name = n := by
  induction names with
  | nil => exact fun st n h => absurd h (List.not_mem_nil n)
  | cons m ms ih =>
    intro st n h
    rcases List.mem_cons.mp h with h1 | h2
    · subst h1
      rcases name_mem_insert_dim_if_absent st n with ⟨r, hr, hname⟩
      exact ⟨r, mem_foldl_insert_dim ms (insert_dim_if_absent st n) r hr, hname⟩
    · exact ih (insert_dim_if_absent st m) n h2

theorem foldl_insert_dim_noop (names : List String) :
    ∀ st : List DimRow × ℕ, (∀ n ∈ names, ∃ r ∈ st.1, r.name = n) →
    names.foldl insert_dim_if_absent st = st := by
  induction names with
  | nil => exact fun st _ => rfl
  | cons m ms ih =>
    intro st h
    have hm : insert_dim_if_absent st m = st := by
      unfold insert_dim_if_absent
      exact if_pos (h m (List.mem_cons_self m ms))
    show ms.foldl insert_dim_if_absent (insert_dim_if_absent st m) = st
    rw [hm]
    exact ih st (fun n hn => h n (List.mem_cons_of_mem m hn))

/-- Claim C7: the resolver follows the two-phase insert-if-absent-then-read
algorithm (the definition of `resolve_all`); resolving the same name list a
second time leaves the dimension table unchanged and returns the identical
name-to-id mapping, and every requested name is mapped to some id. -/
theorem c7_resolve_all_idempotent (db0 : List DimRow) (nextId : ℕ)
    (names : List String) :
    (resolve_all (resolve_all (db0, nextId) names).1 names).1
      = (resolve_all (db0, nextId) names).1 ∧
    (resolve_all (resolve_all (db0, nextId) names).1 names).2
      = (resolve_all (db0, nextId) names).2 ∧
    (∀ n ∈ names, ∃ i, (n, i) ∈ (resolve_all (db0, nextId) names).2) := by
  have hpresent : ∀ n ∈ names,
      ∃ r ∈ (names.foldl insert_dim_if_absent (db0, nextId)).1, r.name = n :=
    fun n hn => names_mem_foldl_insert_dim names (db0, nextId) n hn
  have hnoop : names.foldl insert_dim_if_absent
      (names.foldl insert_dim_if_absent (db0, nextId)) =
      names.foldl insert_dim_if_absent (db0, nextId) :=
    foldl_insert_dim_noop names _ hpresent
  refine ⟨?_, ?_, ?_⟩
  · rw [resolve_all_eq, resolve_all_eq]
    simpa using hnoop
  · rw [resolve_all_eq, resolve_all_eq]
    simp only
    rw [hnoop]
  · intro n hn
    rcases hpresent n hn with ⟨r, hr, hname⟩
    refine ⟨r.id, ?_⟩
    rw [resolve_all_eq]
    simp only
    have := List.mem_map_of_mem (fun r : DimRow => (r.name, r.id)) hr
    simpa [hname] using this

/-- Witness for the C7 theorem: resolving two source names from an empty
dimension table maps the first name to some id. -/
theorem c7_resolve_all_idempotent_witness :
    "CNN" ∈ ["CNN", "BBC"] ∧
    ∃ i, ("CNN", i) ∈ (resolve_all ([], 1) ["CNN", "BBC"]).2 :=
  ⟨by decide, (c7_resolve_all_idempotent [] 1 ["CNN", "BBC"]).2.2 "CNN" (by decide)⟩

/-! ### Transform-failure propagation (claim C4) -/

theorem process_articles_error_of_mem (E : Type) (analyze : String → Except E ℚ)
    (tokenize : String → List String) (stop_words : List String)
    (articles : List Article) : ∀ (a : Article) (e : E), a ∈ articles →
    analyze a.text = Except.error e →
    ∃ e2, process_articles analyze tokenize stop_words articles = Except.error e2 := by
  induction articles with
  | nil => exact fun a e h _ => absurd h (List.not_mem_nil a)
  | cons b rest ih =>
    intro a e hmem herr
    cases hb : analyze b.text with
    | error e0 => exact ⟨e0, by simp [process_articles, hb]⟩
    | ok s =>
      rcases List.mem_cons.mp hmem with h1 | h2
      · subst h1
        rw [herr] at hb
        exact absurd hb (by simp)
      · rcases ih a e h2 herr with ⟨e2, hrest⟩
        exact ⟨e2, by simp [process_articles, hb, hrest]⟩

theorem process_posts_error_of_mem (E : Type) (analyze : String → Except E ℚ)
    (tokenize : String → List String) (stop_words : List String)
    (posts : List Post) : ∀ (p : Post) (e : E), p ∈ posts →
    analyze p.text = Except.error e →
    ∃ e2, process_posts analyze tokenize stop_words posts = Except.error e2 := by
  induction posts with
  | nil => exact fun p e h _ => absurd h (List.not_mem_nil p)
  | cons b rest ih =>
    intro p e hmem herr
    cases hb : analyze b.text with
    | error e0 => exact ⟨e0, by simp [process_posts, hb]⟩
    | ok s =>
      rcases List.mem_cons.mp hmem with h1 | h2
      · subst h1
        rw [herr] at hb
        exact absurd hb (by simp)
      · rcases ih p e h2 herr with ⟨e2, hrest⟩
        exact ⟨e2, by simp [process_posts, hb, hrest]⟩

/-- Claim C4 counterexample: a batch of two articles whose first article
makes the scorer fail.  The transform call returns the scorer's error —
the failing record is not dropped and the healthy second record is not
accumulated, contradicting the claimed per-record isolation. -/
theorem c4_transform_isolation_counterexample :
    process_articles (fun t => if t = "bad" then (Except.error 0 : Except ℕ ℚ) else Except.ok 1)
        (fun s => s.splitOn " ") []
        [⟨"t1", "bad", "u", "d", "s"⟩, ⟨"t2", "good text", "u", "d", "s"⟩]
      = Except.error 0 ∧
    process_articles (fun t => if t = "bad" then (Except.error 0 : Except ℕ ℚ) else Except.ok 1)
        (fun s => s.splitOn " ") []
        [⟨"t1", "bad", "u", "d", "s"⟩, ⟨"t2", "good text", "u", "d", "s"⟩]
      ≠ Except.ok [⟨"d", "s", "t2", 1, ["good", "text"], ⟨[], [], []⟩⟩] := by
  refine ⟨rfl, fun h => ?_⟩
  have h1 : (Except.error 0 : Except ℕ (List ProcessedArticle))
      = Except.ok [⟨"d", "s", "t2", 1, ["good", "text"], ⟨[], [], []⟩⟩] := h
  exact Except.noConfusion h1

/-- Claim C4 amended: in both transform loops a scorer failure on any record
of the batch is not caught — the error propagates and the whole transform
call fails, accumulating none of the batch's records. -/
theorem c4_transform_failure_aborts_batch :
    (∀ (E : Type) (analyze : String → Except E ℚ) (tokenize : String → List String)
      (stop_words : List String) (articles : List Article) (a : Article) (e : E),
      a ∈ articles → analyze a.text = Except.error e →
      ∃ e2, process_articles analyze tokenize stop_words articles = Except.error e2) ∧
    (∀ (E : Type) (analyze : String → Except E ℚ) (tokenize : String → List String)
      (stop_words : List String) (posts : List Post) (p : Post) (e : E),
      p ∈ posts → analyze p.text = Except.error e →
      ∃ e2, process_posts analyze tokenize stop_words posts = Except.error e2) :=
  ⟨fun E analyze tokenize stop_words articles a e hmem herr =>
    process_articles_error_of_mem E analyze tokenize stop_words articles a e hmem herr,
   fun E analyze tokenize stop_words posts p e hmem herr =>
    process_posts_error_of_mem E analyze tokenize stop_words posts p e hmem herr⟩

/-- Witness for the amended C4 theorem at a one-article batch whose text
makes the scorer fail. -/
theorem c4_transform_failure_aborts_batch_witness :
    (⟨"t1", "bad", "u", "d", "s"⟩ : Article) ∈ [(⟨"t1", "bad", "u", "d", "s"⟩ : Article)] ∧
    (fun t => if t = "bad" then (Except.error 0 : Except ℕ ℚ) else Except.ok 1)
        (Article.text ⟨"t1", "bad", "u", "d", "s"⟩) = Except.error 0 ∧
    ∃ e2, process_articles
        (fun t => if t = "bad" then (Except.error 0 : Except ℕ ℚ) else Except.ok 1)
        (fun s => s.splitOn " ") [] [⟨"t1", "bad", "u", "d", "s"⟩] = Except.error e2 :=
  ⟨by decide, rfl,
    c4_transform_failure_aborts_batch.1 ℕ
      (fun t => if t = "bad" then (Except.error 0 : Except ℕ ℚ) else Except.ok 1)
      (fun s => s.splitOn " ") []
      [⟨"t1", "bad", "u", "d", "s"⟩] ⟨"t1", "bad", "u", "d", "s"⟩ 0 (by decide) rfl⟩

/-- Claim C9: no post lacking the symbol as a case-insensitive whole word
is ever returned by `fetch_reddit_posts` — vacuously so, because line 115
unconditionally raises AttributeError before the filter or the scraper
runs, so the fetch never returns any post at all: the first conjunct shows
every call returns that error for every scraper, and the second states the
claim itself (the returned posts lacking the symbol form the empty list).
The last two conjuncts attest that the filter in the dead remainder of the
function is itself broken: its pattern alternates over the CHARACTERS of
the symbol, so for AAPL it accepts a text whose only connection to the
ticker is the single-letter word "a", which the spec-side whole-word
predicate rejects. -/
theorem c9_ticker_filter_vacuous :
    (∀ (E : Type) (scrape : String → Except E (List RedditItem)) (symbol : String),
      fetch_reddit_posts scrape symbol = Except.error SocialErr.attributeError) ∧
    (∀ (E : Type) (scrape : String → Except E (List RedditItem)) (symbol : String),
      (match fetch_reddit_posts scrape symbol with
        | Except.ok posts => posts.filter (fun p => !whole_word_contains symbol p.text)
        | Except.error _ => ([] : List Post)) = []) ∧
    ticker_regex_matches "AAPL" "buy a share now" = true ∧
    whole_word_contains "AAPL" "buy a share now" = false :=
  ⟨fun _ _ _ => rfl, fun _ _ _ => rfl, by decide, by decide⟩

/-! ### Orchestrator fetch isolation (claim C8) -/

theorem news_main_fetch_failure_skips (E : Type)
    (get_articles : String → Except E (List Article)) (analyze : String → Except E ℚ)
    (tokenize : String → List String) (stop_words : List String)
    (b : String) (e : E) (symbols : List String) :
    news_main (fun s => if s = b then Except.error e else get_articles s)
        analyze tokenize stop_words symbols
      = news_main get_articles analyze tokenize stop_words
          (symbols.filter (fun s => decide (s ≠ b))) := by
  induction symbols with
  | nil => rfl
  | cons s rest ih =>
    by_cases hs : s = b
    · subst hs
      have hfilter : (s :: rest).filter (fun x => decide (x ≠ s))
          = rest.filter (fun x => decide (x ≠ s)) := by simp
      have h1 : fetch_news_articles
          (fun s2 => if s2 = s then Except.error e else get_articles s2) s = [] := by
        simp [fetch_news_articles]
      rw [hfilter, ← ih]
      simp [news_main, h1]
    · have hfilter : (s :: rest).filter (fun x => decide (x ≠ b))
          = s :: rest.filter (fun x => decide (x ≠ b)) := by simp [hs]
      have h2 : fetch_news_articles
          (fun s2 => if s2 = b then Except.error e else get_articles s2) s
          = fetch_news_articles get_articles s := by
        simp [fetch_news_articles, hs]
      rw [hfilter]
      simp only [news_main, h2, ih]

theorem social_main_always_aborts (E : Type)
    (scrape : String → Except E (List RedditItem))
    (analyze : String → Except (SocialErr E) ℚ) (tokenize : String → List String)
    (stop_words : List String) (s : String) (rest : List String) :
    social_main scrape analyze tokenize stop_words (s :: rest)
      = Except.error SocialErr.attributeError := rfl

/-- Claim C8 counterexample: in the social pipeline even a perfectly
healthy scraper (here returning a matching post for every symbol) cannot
save the run — the first unit's fetch raises the unconditional
AttributeError of line 115, nothing catches it, the orchestrator never
advances, and no unit's records are transformed or loaded. -/
theorem c8_social_fetch_abort_counterexample :
    social_main
        (fun _ : String =>
          (Except.ok [⟨"buy f now", "d", "u", "url"⟩] : Except Unit (List RedditItem)))
        (fun _ => Except.ok 1) words [] ["AAPL", "MSFT"]
      = Except.error SocialErr.attributeError :=
  rfl

/-- Claim C8 amended: in the news pipeline a unit's fetch failure is caught
inside `fetch_news_articles` and the run proceeds exactly as if the failed
symbol were absent (other units' records still transformed and
accumulated); in the social pipeline the fetch raises unconditionally
(AttributeError, line 115) before the scraper is even consulted, nothing
catches it, and every run over a nonempty symbol list aborts with that
error, loading nothing. -/
theorem c8_fetch_isolation_amended :
    (∀ (E : Type) (get_articles : String → Except E (List Article))
      (analyze : String → Except E ℚ) (tokenize : String → List String)
      (stop_words : List String) (b : String) (e : E) (symbols : List String),
      news_main (fun s => if s = b then Except.error e else get_articles s)
          analyze tokenize stop_words symbols
        = news_main get_articles analyze tokenize stop_words
            (symbols.filter (fun s => decide (s ≠ b)))) ∧
    (∀ (E : Type) (scrape : String → Except E (List RedditItem))
      (analyze : String → Except (SocialErr E) ℚ) (tokenize : String → List String)
      (stop_words : List String) (s : String) (rest : List String),
      social_main scrape analyze tokenize stop_words (s :: rest)
        = Except.error SocialErr.attributeError) :=
  ⟨fun E ga analyze tokenize stop_words b e symbols =>
    news_main_fetch_failure_skips E ga analyze tokenize stop_words b e symbols,
   fun E scrape analyze tokenize stop_words s rest =>
    social_main_always_aborts E scrape analyze tokenize stop_words s rest⟩

/-! ### Market-bar transform equals its claimed description (claim C10) -/

theorem map_filter_eq_filterMap {α β : Type} (p : α → Bool) (f : α → β) (l : List α) :
    (l.filter p).map f = l.filterMap (fun a => if p a then some (f a) else none) := by
  induction l with
  | nil => rfl
  | cons a t ih => by_cases h : p a <;> simp [h, ih]

theorem filterMap_ext_mem {α β : Type} (f g : α → Option β) (l : List α)
    (h : ∀ a ∈ l, f a = g a) : l.filterMap f = l.filterMap g := by
  induction l with
  | nil => rfl
  | cons a t ih =>
    rw [List.filterMap_cons, List.filterMap_cons, h a (List.mem_cons_self a t),
      ih (fun x hx => h x (List.mem_cons_of_mem a hx))]

theorem transform_row_case (r : RawRow) :
    Option.map convert_types
      (match clean_open r.open_ with
        | some q => if q = 0 then none else some (r, q)
        | none => none)
      = if spec_keep r then some (spec_row r) else none := by
  by_cases h0 : r.open_ = ""
  · have hr : repl_empty_dash r.open_ = "0" := by simp [repl_empty_dash, h0]
    have ht0 : to_numeric "0" = some (0 : ℚ) := by decide
    have hc : clean_open r.open_ = some 0 := by simp [clean_open, h0, ht0]
    simp [hc, spec_keep, hr, ht0]
  · by_cases h1 : r.open_ = "-"
    · have hr : repl_empty_dash r.open_ = "0" := by simp [repl_empty_dash, h1]
      have ht0 : to_numeric "0" = some (0 : ℚ) := by decide
      have htd : to_numeric "-" = none := by decide
      have hc : clean_open r.open_ = none := by simp [clean_open, h0, h1, htd]
      simp [hc, spec_keep, hr, ht0]
    · have hr : repl_empty_dash r.open_ = r.open_ := by simp [repl_empty_dash, h0, h1]
      have hc : clean_open r.open_ = to_numeric r.open_ := by simp [clean_open, h0]
      cases ht : to_numeric r.open_ with
      | none => simp [hc, ht, spec_keep, hr]
      | some q =>
        by_cases hq : q = 0
        · simp [hc, ht, hq, spec_keep, hr]
        · have heq : convert_types (r, q) = spec_row r := by
            simp [convert_types, spec_row, price_float, hr, ht]
          simp [hc, ht, hq, spec_keep, hr, heq]

/-- Claim C10: the per-company transform (clean the Open column, drop rows
whose Open is empty, zero or non-numeric, then convert types) produces
exactly the rows described by the claim: keep a row precisely when its Open
— after replacing '' and '-' by 0 — is numeric and nonzero, with the price
fields parsed (unparseable coerced to 0) and the volume an integer
(unparseable coerced to 0). -/
theorem c10_transform_equals_spec (rows : List RawRow) :
    transform_company rows = (rows.filter spec_keep).map spec_row := by
  rw [transform_company, filter_rows, List.map_filterMap,
    map_filter_eq_filterMap spec_keep spec_row rows]
  exact filterMap_ext_mem _ _ rows (fun r _ => transform_row_case r)

end MarketMagic
